import Mathlib

/-!
Verification of the single-pass metrics engine of the `typescript_analyzer`
repository.

The analyzer is regex-driven JavaScript.  We shallowly embed the relevant
source functions (`stripCommentsAndStrings`, `calculateComplexity`,
`extractFunctions`, `extractDependencies`, `analyzeFile` from the
file-analyzer module, `findDuplicates` from the duplicates module and
`buildSummary` from `src/index.js`) on top of a small executable model of
the JavaScript regular-expression constructs those functions actually use:
character classes, concatenation, alternation, greedy and lazy repetition,
word boundaries and one capturing group, together with the global
`match`/`matchAll`/`replace` scanning loop (leftmost match, alternation
prefers the left branch, greedy repetition prefers more iterations, lazy
repetition prefers fewer, the scan resumes at the end of each match).
-/

/-- Syntax of the regular-expression fragment used by the analyzer.
`cls` is a character class given by its characteristic predicate, `star`
is greedy repetition, `starLazy` non-greedy repetition, `wb` the `\b`
word-boundary assertion and `grp` a capturing group. -/
inductive RE where
  | eps : RE
  | cls : (Char → Bool) → RE
  | seq : RE → RE → RE
  | alt : RE → RE → RE
  | star : RE → RE
  | starLazy : RE → RE
  | wb : RE
  | grp : RE → RE

/-- JavaScript `\w`: ASCII letters, digits and underscore. -/
def isWordChar (c : Char) : Bool :=
  c.isAlphanum || c == '_'

/-- JavaScript `\s` (the whitespace characters that occur in practice:
space, tab, line feed, carriage return, vertical tab, form feed,
no-break space, BOM). -/
def jsSpace (c : Char) : Bool :=
  c == ' ' || c == '\t' || c == '\n' || c == '\r' || c == '\x0b' ||
    c == '\x0c' || c == '\u00A0' || c == '\uFEFF'

/-- A matcher state: the character immediately before the current
position (for `\b`), the remaining input, and the captured group
content, if any. -/
structure MState where
  prev : Option Char
  rest : List Char
  cap : Option (List Char)

/-- The `\b` test: the position is a boundary when exactly one side is a
word character (start/end of input counts as a non-word side). -/
def atBoundary (prev : Option Char) (rest : List Char) : Bool :=
  (match prev with | none => false | some c => isWordChar c) !=
    (match rest.head? with | none => false | some c => isWordChar c)

/-- Backtracking matcher.  Returns every way the expression can match a
prefix of `st.rest`, in JavaScript preference order (the head of the
list is the match the JS engine produces).  `fuel` bounds the number of
repetition unrollings; every repetition iteration is required to consume
at least one character (as in the ECMAScript empty-iteration rule), so a
fuel linear in the input length is always sufficient. -/
def matchRE : Nat → RE → MState → List MState
  | 0, _, _ => []
  | fuel+1, re, st =>
    match re with
    | RE.eps => [st]
    | RE.cls p =>
      match st.rest with
      | [] => []
      | c :: r => if p c then [⟨some c, r, st.cap⟩] else []
    | RE.seq a b => (matchRE fuel a st).flatMap (fun st2 => matchRE fuel b st2)
    | RE.alt a b => matchRE fuel a st ++ matchRE fuel b st
    | RE.star a =>
      (((matchRE fuel a st).filter (fun st2 => st2.rest.length < st.rest.length)).flatMap
        (fun st2 => matchRE fuel (RE.star a) st2)) ++ [st]
    | RE.starLazy a =>
      st :: (((matchRE fuel a st).filter (fun st2 => st2.rest.length < st.rest.length)).flatMap
        (fun st2 => matchRE fuel (RE.starLazy a) st2))
    | RE.wb => if atBoundary st.prev st.rest then [st] else []
    | RE.grp a =>
      (matchRE fuel a st).map (fun st2 =>
        ⟨st2.prev, st2.rest, some (st.rest.take (st.rest.length - st2.rest.length))⟩)

/-- Fuel that is always ample for the patterns of the analyzer: the
recursion consumes at most one unit per pattern node traversed, every
repetition iteration consumes at least one input character, and every
source pattern has far fewer than 128 nodes. -/
def ampleFuel (s : List Char) : Nat := 128 * s.length + 512

/-- The global scanning loop shared by `String.prototype.match` with the
`g` flag and `matchAll`: repeatedly find the leftmost match, record the
matched text and the capture, and resume right after it (advancing one
character past an empty match). -/
def scanAux : Nat → RE → Option Char → List Char → List (List Char × Option (List Char))
  | 0, _, _, _ => []
  | fuel+1, re, prev, s =>
    match (matchRE (ampleFuel s) re ⟨prev, s, none⟩).head? with
    | some st2 =>
      let consumed := s.length - st2.rest.length
      if consumed = 0 then
        match s with
        | [] => [(([] : List Char), st2.cap)]
        | c :: r => (([] : List Char), st2.cap) :: scanAux fuel re (some c) r
      else
        (s.take consumed, st2.cap) :: scanAux fuel re st2.prev st2.rest
    | none =>
      match s with
      | [] => []
      | c :: r => scanAux fuel re (some c) r

/-- All matches of `re` in `s` (matched text and capture), in order. -/
def allMatches (re : RE) (s : String) : List (List Char × Option (List Char)) :=
  scanAux (s.data.length + 1) re none s.data

/-- `(s.match(re) || []).length` for a global regex: the number of
matches found by the scanning loop. -/
def countMatches (re : RE) (s : String) : Nat :=
  (allMatches re s).length

/-- The capture-group strings of every match, in match order
(`[...s.matchAll(re)].map(m => m[1])`). -/
def capturesOf (re : RE) (s : String) : List String :=
  (allMatches re s).filterMap (fun m => m.2.map (fun l => (⟨l⟩ : String)))

/-- `s.replace(re, repl)` for a global regex with a plain replacement
string. -/
def replaceAux : Nat → RE → String → Option Char → List Char → List Char
  | 0, _, _, _, s => s
  | fuel+1, re, repl, prev, s =>
    match (matchRE (ampleFuel s) re ⟨prev, s, none⟩).head? with
    | some st2 =>
      let consumed := s.length - st2.rest.length
      if consumed = 0 then
        match s with
        | [] => repl.data
        | c :: r => repl.data ++ c :: replaceAux fuel re repl (some c) r
      else
        repl.data ++ replaceAux fuel re repl st2.prev st2.rest
    | none =>
      match s with
      | [] => []
      | c :: r => c :: replaceAux fuel re repl (some c) r

/-- `code.replace(re, repl)` with the `g` flag. -/
def jsReplace (s : String) (re : RE) (repl : String) : String :=
  ⟨replaceAux (s.data.length + 1) re repl none s.data⟩

/-- A single literal character. -/
def chr (c : Char) : RE := RE.cls (fun c2 => c2 == c)

/-- A literal string of characters. -/
def lit (s : String) : RE :=
  s.data.foldr (fun c r => RE.seq (chr c) r) RE.eps

/-- Concatenation of a list of expressions. -/
def cat (l : List RE) : RE := l.foldr RE.seq RE.eps

/-- Greedy `+`. -/
def plus (a : RE) : RE := RE.seq a (RE.star a)

/-- Greedy `?`. -/
def opt (a : RE) : RE := RE.alt a RE.eps

/-- Three-way alternation `(?:a|b|c)`. -/
def alt3 (a b c : RE) : RE := RE.alt a (RE.alt b c)

/-- `\s*`. -/
def wsStar : RE := RE.star (RE.cls jsSpace)

/-- `\s+`. -/
def wsPlus : RE := plus (RE.cls jsSpace)

/-- `\w+`. -/
def wordPlus : RE := plus (RE.cls isWordChar)

/-! ## The decision-point patterns (`COMPLEXITY_TOKENS`, file-analyzer lines 28-42) -/

/-- `/\bif\s*\(/g` -/
def reIf : RE := cat [RE.wb, lit "if", wsStar, chr '(']

/-- `/\belse\s+if\s*\(/g` -/
def reElseIf : RE := cat [RE.wb, lit "else", wsPlus, lit "if", wsStar, chr '(']

/-- `/\bfor\s*\(/g` -/
def reFor : RE := cat [RE.wb, lit "for", wsStar, chr '(']

/-- `/\bfor\s+(?:const|let|var)\s+\w+\s+(?:of|in)\b/g` -/
def reForOf : RE :=
  cat [RE.wb, lit "for", wsPlus, alt3 (lit "const") (lit "let") (lit "var"),
    wsPlus, wordPlus, wsPlus, RE.alt (lit "of") (lit "in"), RE.wb]

/-- `/\bwhile\s*\(/g` -/
def reWhile : RE := cat [RE.wb, lit "while", wsStar, chr '(']

/-- `/\bdo\s*\{/g` -/
def reDo : RE := cat [RE.wb, lit "do", wsStar, chr '\x7b']

/-- `/\bcase\s+/g` -/
def reCase : RE := cat [RE.wb, lit "case", wsPlus]

/-- `/\bcatch\s*\(/g` -/
def reCatch : RE := cat [RE.wb, lit "catch", wsStar, chr '(']

/-- `/\?\?/g` (nullish coalescing) -/
def reNullish : RE := cat [chr '?', chr '?']

/-- `/\?\./g` (optional chaining) -/
def reOptChain : RE := cat [chr '?', chr '.']

/-- `/&&/g` (logical AND) -/
def reAnd : RE := cat [chr '&', chr '&']

/-- `/\|\|/g` (logical OR) -/
def reOr : RE := cat [chr '|', chr '|']

/-- `/\?[^?.]/g` (ternary operator, avoiding `?.` and `??`) -/
def reTernary : RE :=
  cat [chr '?', RE.cls (fun c => !(c == '?') && !(c == '.'))]

/-- The `COMPLEXITY_TOKENS` array, in source order. -/
def COMPLEXITY_TOKENS : List RE :=
  [reIf, reElseIf, reFor, reForOf, reWhile, reDo, reCase, reCatch,
    reNullish, reOptChain, reAnd, reOr, reTernary]

/-! ## The normalizer (`stripCommentsAndStrings`, file-analyzer lines 110-121) -/

/-- `` /`[^`]*`/gs `` — template literals. -/
def reTemplate : RE :=
  cat [chr '\x60', RE.star (RE.cls (fun c => !(c == '\x60'))), chr '\x60']

/-- `/\/\*[\s\S]*?\*\//g` — block comments (non-greedy body). -/
def reBlockComment : RE :=
  cat [chr '/', chr '*', RE.starLazy (RE.cls (fun _ => true)), chr '*', chr '/']

/-- `/\/\/.*$/gm` — line comments.  With the `m` flag, `.*` stops at a
line terminator and `$` then necessarily holds there, so the pattern
matches exactly `//` followed by the longest run of
non-line-terminator characters. -/
def reLineComment : RE :=
  cat [chr '/', chr '/',
    RE.star (RE.cls (fun c =>
      !(c == '\n') && !(c == '\r') && !(c == ' ') && !(c == ' ')))]

/-- `/'[^']*'/g` — single-quoted string literals. -/
def reSingleQuote : RE :=
  cat [chr '\x27', RE.star (RE.cls (fun c => !(c == '\x27'))), chr '\x27']

/-- `/"[^"]*"/g` — double-quoted string literals. -/
def reDoubleQuote : RE :=
  cat [chr '\x22', RE.star (RE.cls (fun c => !(c == '\x22'))), chr '\x22']

/-- `stripCommentsAndStrings` (file-analyzer lines 110-121): five
successive global replacements, in source order — template literals
become `""`, block comments and line comments are deleted, quoted
strings become `""`. -/
def stripCommentsAndStrings (code : String) : String :=
  jsReplace
    (jsReplace
      (jsReplace
        (jsReplace
          (jsReplace code reTemplate "\x22\x22")
          reBlockComment "")
        reLineComment "")
      reSingleQuote "\x22\x22")
    reDoubleQuote "\x22\x22"

/-! ## The complexity scorer (`calculateComplexity`, file-analyzer lines 151-162) -/

/-- `calculateComplexity`: baseline 1 plus, for each decision-point
pattern, the number of its matches in the stripped text. -/
def calculateComplexity (stripped : String) : Nat :=
  COMPLEXITY_TOKENS.foldl (fun c p => c + countMatches p stripped) 1

/-! ## The function detector (`extractFunctions`, file-analyzer lines 126-145) -/

/-- `/\bfunction\s+(\w+)/g` — named function declarations. -/
def reNamedFn : RE := cat [RE.wb, lit "function", wsPlus, RE.grp wordPlus]

/-- `/\b(?:const|let|var)\s+(\w+)\s*=\s*(?:async\s+)?(?:\([^)]*\)|[a-zA-Z_$]\w*)\s*=>/g`
— arrow functions assigned to variables. -/
def reArrowFn : RE :=
  cat [RE.wb, alt3 (lit "const") (lit "let") (lit "var"), wsPlus,
    RE.grp wordPlus, wsStar, chr '=', wsStar,
    opt (cat [lit "async", wsPlus]),
    RE.alt
      (cat [chr '(', RE.star (RE.cls (fun c => !(c == ')'))), chr ')'])
      (cat [RE.cls (fun c => c.isAlpha || c == '_' || c == '$'),
        RE.star (RE.cls isWordChar)]),
    wsStar, lit "=>"]

/-- `/\bclass\s+(\w+)/g` — class declarations. -/
def reClassDecl : RE := cat [RE.wb, lit "class", wsPlus, RE.grp wordPlus]

/-- `Set.prototype.add` on an insertion-ordered set represented as a
duplicate-free list. -/
def addUnique (acc : List String) (x : String) : List String :=
  if x ∈ acc then acc else acc ++ [x]

/-- `extractFunctions`: one shared `Set`, filled with the capture of
every match of the three patterns in source order, spread back into an
array (insertion order). -/
def extractFunctions (stripped : String) : List String :=
  ((capturesOf reNamedFn stripped) ++ (capturesOf reArrowFn stripped) ++
    (capturesOf reClassDecl stripped)).foldl addUnique []

/-! ## The dependency extractor (`extractDependencies`, file-analyzer
lines 168-180, and `IMPORT_REGEX`, line 45) -/

/-- One import-clause member: `{[^}]*}` or `\*\s+as\s+\w+` or `\w+`. -/
def importSpec : RE :=
  alt3
    (cat [chr '\x7b', RE.star (RE.cls (fun c => !(c == '\x7d'))), chr '\x7d'])
    (cat [chr '*', wsPlus, lit "as", wsPlus, wordPlus])
    wordPlus

/-- A quote character, single or double (`['"]`). -/
def quoteChar : RE := RE.cls (fun c => c == '\x27' || c == '\x22')

/-- `IMPORT_REGEX` (file-analyzer line 45):
`/import\s+(?:(?:type\s+)?(?:{[^}]*}|\*\s+as\s+\w+|\w+)(?:\s*,\s*(?:{[^}]*}|\*\s+as\s+\w+|\w+))*\s+from\s+)?['"]([^'"]+)['"]/g`,
the module specifier being the capture group. -/
def IMPORT_REGEX : RE :=
  cat [lit "import", wsPlus,
    opt (cat [opt (cat [lit "type", wsPlus]), importSpec,
      RE.star (cat [wsStar, chr ',', wsStar, importSpec]),
      wsPlus, lit "from", wsPlus]),
    quoteChar,
    RE.grp (plus (RE.cls (fun c => !(c == '\x27') && !(c == '\x22')))),
    quoteChar]

/-- The fixed framework-core exclusion set (file-analyzer line 170). -/
def EXCLUDED : List String :=
  ["react", "react-dom", "react-redux", "react-router", "react-router-dom"]

/-- `extractDependencies`: collect the capture of every `IMPORT_REGEX`
match into a `Set`, skipping members of `EXCLUDED`, then
`[...deps].sort()` — JavaScript default sort on strings is
lexicographic order, modelled by insertion sort with `≤`. -/
def extractDependencies (content : String) : List String :=
  List.insertionSort (· ≤ ·)
    ((capturesOf IMPORT_REGEX content).foldl
      (fun acc spec => if spec ∈ EXCLUDED then acc else addUnique acc spec) [])

/-! ## The file analyzer (`analyzeFile`, file-analyzer lines 56-104) -/

/-- The options object of `analyzeFile` (`{ complexity, functions }`,
both defaulting to false). -/
structure AnalyzeOpts where
  complexity : Bool := false
  functions : Bool := false

/-- The per-file result record returned by `analyzeFile`. -/
structure FileResult where
  filePath : String
  fileName : String
  totalLines : Nat
  codeLines : Nat
  lines : Nat
  contentHash : String
  functionCount : Nat
  functionNames : List String
  dependencies : List String
  complexity : Nat
deriving DecidableEq

/-- `analyzeFile` on the content already read from disk.  The two
external library calls are modelled as parameters: `hashFn` stands for
`crypto.createHash('sha256').update(content).digest('hex')` and the
file name for `path.basename` (neither value is computed by this
repository's code; no claim depends on their values). -/
def analyzeFile (hashFn : String → String) (filePath content : String)
    (opts : AnalyzeOpts) : FileResult :=
  let stripped := stripCommentsAndStrings content
  let fileLines := content.splitOn "\n"
  let totalLines := fileLines.length
  let codeLines := (fileLines.filter (fun line =>
    let trimmed := line.trim
    decide (0 < trimmed.length) && !(trimmed.startsWith "//") &&
      !(trimmed.startsWith "*"))).length
  let contentHash := hashFn content
  let found := if opts.functions then extractFunctions stripped else []
  let functionCount := if opts.functions then found.length else 0
  let dependencies := extractDependencies content
  let complexityScore := if opts.complexity then calculateComplexity stripped else 0
  { filePath := filePath
    fileName := (filePath.splitOn "/").getLastD filePath
    totalLines := totalLines
    codeLines := codeLines
    lines := totalLines
    contentHash := contentHash
    functionCount := functionCount
    functionNames := found
    dependencies := dependencies
    complexity := complexityScore }

/-! ## The duplicate grouper (`findDuplicates`, duplicates module lines 15-35) -/

/-- A duplicate group `{ hash, files }`. -/
structure DuplicateGroup where
  hash : String
  files : List String
deriving DecidableEq

/-- One step of the `hashMap` loop: push `filePath` onto the bucket of
`hash`, creating the bucket (at the end, preserving the `Map`'s
insertion order of keys) when absent. -/
def insertResult (m : List (String × List String)) (hash filePath : String) :
    List (String × List String) :=
  match m with
  | [] => [(hash, [filePath])]
  | e :: rest =>
    if e.1 = hash then (e.1, e.2 ++ [filePath]) :: rest
    else e :: insertResult rest hash filePath

/-- The `for (const result of results)` loop building the `hashMap`. -/
def buildHashMapAux (m : List (String × List String)) :
    List FileResult → List (String × List String)
  | [] => m
  | r :: rs => buildHashMapAux (insertResult m r.contentHash r.filePath) rs

/-- `findDuplicates`: group paths by content hash, keep the groups with
two or more files, in the map's key insertion order. -/
def findDuplicates (results : List FileResult) : List DuplicateGroup :=
  (buildHashMapAux [] results).filterMap
    (fun e => if 1 < e.2.length then some ⟨e.1, e.2⟩ else none)

/-! ## The aggregator (`buildSummary`, `src/index.js` lines 91-110) -/

/-- The configuration toggles relevant to `buildSummary` (from
`parseArgs`). -/
structure Config where
  duplicates : Bool
  complexity : Bool
  functions : Bool

/-- The project summary record. -/
structure Summary where
  totalFiles : Nat
  totalLines : Nat
  totalFunctions : Option Nat
  totalComplexity : Option Nat
  complexityLevel : Option String
deriving DecidableEq

/-- `buildSummary`: unconditional sum of `lines`, sums of
`functionCount`/`complexity` only when the corresponding analysis is
enabled (`null` otherwise), and the threshold classification of the
total complexity. -/
def buildSummary (results : List FileResult) (config : Config) : Summary :=
  let totalLines := results.foldl (fun s r => s + r.lines) 0
  let totalFiles := results.length
  let totalFunctions :=
    if config.functions then some (results.foldl (fun s r => s + r.functionCount) 0)
    else none
  let totalComplexity :=
    if config.complexity then some (results.foldl (fun s r => s + r.complexity) 0)
    else none
  let complexityLevel :=
    match totalComplexity with
    | none => none
    | some tc =>
      some (if tc ≤ 500 then "Low"
        else if tc ≤ 1500 then "Medium"
        else if tc ≤ 3000 then "High"
        else "Very High")
  { totalFiles := totalFiles
    totalLines := totalLines
    totalFunctions := totalFunctions
    totalComplexity := totalComplexity
    complexityLevel := complexityLevel }

/-- Bucket lookup in the association-list model of the `Map` (used only
to state properties of `findDuplicates`). -/
def lookupBucket : List (String × List String) → String → List String
  | [], _ => []
  | e :: rest, h => if e.1 = h then e.2 else lookupBucket rest h

/-- A three-file fixture: two results with identical content hash `H1`
and one unrelated result with hash `H2`. -/
def demoResults : List FileResult :=
  [⟨"a.ts", "a.ts", 3, 2, 3, "H1", 0, [], [], 0⟩,
   ⟨"b.ts", "b.ts", 3, 2, 3, "H1", 0, [], [], 0⟩,
   ⟨"c.ts", "c.ts", 5, 4, 5, "H2", 0, [], [], 0⟩]

/-! ## Helper lemmas -/

/-- Folding additions never decreases the accumulator. -/
theorem foldl_add_le_init {α : Type} (f : α → Nat) :
    ∀ (l : List α) (c : Nat), c ≤ l.foldl (fun acc p => acc + f p) c
  | [], c => Nat.le_refl c
  | a :: l, c =>
    Nat.le_trans (Nat.le_add_right c (f a)) (foldl_add_le_init f l (c + f a))

/-- Folding additions is monotone in the summands and the start value. -/
theorem foldl_add_mono {α : Type} (f g : α → Nat) :
    ∀ (l : List α), (∀ x ∈ l, f x ≤ g x) → ∀ c1 c2 : Nat, c1 ≤ c2 →
      l.foldl (fun acc p => acc + f p) c1 ≤ l.foldl (fun acc p => acc + g p) c2 := by
  intro l
  induction l with
  | nil => intro _ c1 c2 hc; simpa using hc
  | cons a l ih =>
    intro h c1 c2 hc
    simp only [List.foldl_cons]
    exact ih (fun x hx => h x (List.mem_cons_of_mem a hx))
      (c1 + f a) (c2 + g a)
      (Nat.add_le_add hc (h a (List.mem_cons_self a l)))

/-- `calculateComplexity` written out over the thirteen patterns. -/
theorem calculateComplexity_eq (s : String) :
    calculateComplexity s =
      1 + countMatches reIf s + countMatches reElseIf s + countMatches reFor s +
        countMatches reForOf s + countMatches reWhile s + countMatches reDo s +
        countMatches reCase s + countMatches reCatch s + countMatches reNullish s +
        countMatches reOptChain s + countMatches reAnd s + countMatches reOr s +
        countMatches reTernary s := rfl

/-- The baseline makes every complexity score at least one. -/
theorem one_le_calculateComplexity (s : String) : 1 ≤ calculateComplexity s :=
  foldl_add_le_init (fun p => countMatches p s) COMPLEXITY_TOKENS 1

/-! ## Claims -/

/-- C1: for every raw text `t` whose normalized form has `n` matches of
the `if (` pattern and no match of any other decision-point pattern,
the complexity score computed on the normalized text is `1 + n`. -/
theorem calculateComplexity_if_only (t : String) (n : Nat)
    (hIf : countMatches reIf (stripCommentsAndStrings t) = n)
    (hElseIf : countMatches reElseIf (stripCommentsAndStrings t) = 0)
    (hFor : countMatches reFor (stripCommentsAndStrings t) = 0)
    (hForOf : countMatches reForOf (stripCommentsAndStrings t) = 0)
    (hWhile : countMatches reWhile (stripCommentsAndStrings t) = 0)
    (hDo : countMatches reDo (stripCommentsAndStrings t) = 0)
    (hCase : countMatches reCase (stripCommentsAndStrings t) = 0)
    (hCatch : countMatches reCatch (stripCommentsAndStrings t) = 0)
    (hNullish : countMatches reNullish (stripCommentsAndStrings t) = 0)
    (hOptChain : countMatches reOptChain (stripCommentsAndStrings t) = 0)
    (hAnd : countMatches reAnd (stripCommentsAndStrings t) = 0)
    (hOr : countMatches reOr (stripCommentsAndStrings t) = 0)
    (hTernary : countMatches reTernary (stripCommentsAndStrings t) = 0) :
    calculateComplexity (stripCommentsAndStrings t) = 1 + n := by
  rw [calculateComplexity_eq, hIf, hElseIf, hFor, hForOf, hWhile, hDo, hCase,
    hCatch, hNullish, hOptChain, hAnd, hOr, hTernary]
  omega

/-- Witness for C1: the spec scenario `"if (a) {} if (b) {}"` has two
`if (` matches, no other decision point, and complexity 3. -/
theorem calculateComplexity_if_scenario :
    calculateComplexity (stripCommentsAndStrings "if (a) \x7b\x7d if (b) \x7b\x7d") = 3 :=
  calculateComplexity_if_only "if (a) \x7b\x7d if (b) \x7b\x7d" 2
    (by decide) (by decide) (by decide) (by decide) (by decide) (by decide)
    (by decide) (by decide) (by decide) (by decide) (by decide) (by decide)
    (by decide)

/-- C2: with complexity analysis enabled, the aggregator classifies the
summed project complexity with inclusive upper bounds — at most 500 is
"Low", 501 to 1500 is "Medium", 1501 to 3000 is "High", larger is
"Very High". -/
theorem buildSummary_complexityLevel_bands (results : List FileResult) (d f : Bool) :
    ((results.foldl (fun s r => s + r.complexity) 0 ≤ 500 →
      (buildSummary results ⟨d, true, f⟩).complexityLevel = some "Low") ∧
    (500 < results.foldl (fun s r => s + r.complexity) 0 →
      results.foldl (fun s r => s + r.complexity) 0 ≤ 1500 →
      (buildSummary results ⟨d, true, f⟩).complexityLevel = some "Medium") ∧
    (1500 < results.foldl (fun s r => s + r.complexity) 0 →
      results.foldl (fun s r => s + r.complexity) 0 ≤ 3000 →
      (buildSummary results ⟨d, true, f⟩).complexityLevel = some "High") ∧
    (3000 < results.foldl (fun s r => s + r.complexity) 0 →
      (buildSummary results ⟨d, true, f⟩).complexityLevel = some "Very High")) := by
  have hlevel : (buildSummary results ⟨d, true, f⟩).complexityLevel =
      some (if results.foldl (fun s r => s + r.complexity) 0 ≤ 500 then "Low"
        else if results.foldl (fun s r => s + r.complexity) 0 ≤ 1500 then "Medium"
        else if results.foldl (fun s r => s + r.complexity) 0 ≤ 3000 then "High"
        else "Very High") := rfl
  refine ⟨fun h1 => ?_, fun h1 h2 => ?_, fun h1 h2 => ?_, fun h1 => ?_⟩ <;>
    rw [hlevel]
  · rw [if_pos h1]
  · rw [if_neg (by omega), if_pos h2]
  · rw [if_neg (by omega), if_neg (by omega), if_pos h2]
  · rw [if_neg (by omega), if_neg (by omega), if_neg (by omega)]

/-- Witness for C2: a project totalling complexity 1200 is rated
"Medium". -/
theorem buildSummary_level_1200_medium :
    (buildSummary [⟨"a.ts", "a.ts", 10, 8, 10, "h", 0, [], [], 1200⟩]
      ⟨false, true, false⟩).complexityLevel = some "Medium" :=
  (buildSummary_complexityLevel_bands
    [⟨"a.ts", "a.ts", 10, 8, 10, "h", 0, [], [], 1200⟩] false false).2.1
    (by decide) (by decide)

/-- C5: the `complexity` field of a FileResult is 0 when complexity
analysis was not requested and at least 1 when it was (the scorer
returns at least 1 on every text). -/
theorem analyzeFile_complexity_gating (hashFn : String → String)
    (fp content : String) (fns : Bool) :
    (analyzeFile hashFn fp content ⟨false, fns⟩).complexity = 0 ∧
    1 ≤ (analyzeFile hashFn fp content ⟨true, fns⟩).complexity :=
  ⟨rfl, one_le_calculateComplexity (stripCommentsAndStrings content)⟩

/-- C9: the aggregator sums `lines` unconditionally, sums
`functionCount` and `complexity` only when the corresponding analysis
is enabled, and reports `none` (not zero) for the disabled summary
fields, including the complexity level. -/
theorem buildSummary_conditional_sums (results : List FileResult) (d c f : Bool) :
    (buildSummary results ⟨d, c, f⟩).totalLines =
      results.foldl (fun s r => s + r.lines) 0 ∧
    (buildSummary results ⟨d, c, true⟩).totalFunctions =
      some (results.foldl (fun s r => s + r.functionCount) 0) ∧
    (buildSummary results ⟨d, c, false⟩).totalFunctions = none ∧
    (buildSummary results ⟨d, true, f⟩).totalComplexity =
      some (results.foldl (fun s r => s + r.complexity) 0) ∧
    (buildSummary results ⟨d, false, f⟩).totalComplexity = none ∧
    (buildSummary results ⟨d, false, f⟩).complexityLevel = none :=
  ⟨rfl, rfl, rfl, rfl, rfl, rfl⟩

/-- C7 counterexample: the complexity score is not invariant to the
kind of whitespace nor to string interior content.  Replacing the
newline after `//x` by a space pulls the `if` into the line comment
(score drops from 2 to 1), and replacing the string interiors `/*` and
`*/` by `a` and `b` turns commented-out text back into code (score
rises from 1 to 2). -/
theorem complexity_not_whitespace_invariant :
    calculateComplexity (stripCommentsAndStrings "//x\nif (a)") = 2 ∧
    calculateComplexity (stripCommentsAndStrings "//x if (a)") = 1 ∧
    calculateComplexity (stripCommentsAndStrings "\x27/*\x27 if (x) \x27*/\x27") = 1 ∧
    calculateComplexity (stripCommentsAndStrings "\x27a\x27 if (x) \x27b\x27") = 2 :=
  ⟨by decide, by decide, by decide, by decide⟩

/-- C7 (amended): the complexity score of a file depends only on its
normalized text — any two raw texts with equal normalized forms get
equal scores, so whitespace or comment/string-content changes preserve
the score exactly when they preserve the normalized text. -/
theorem complexity_depends_only_on_normalized (t1 t2 : String)
    (h : stripCommentsAndStrings t1 = stripCommentsAndStrings t2) :
    calculateComplexity (stripCommentsAndStrings t1) =
      calculateComplexity (stripCommentsAndStrings t2) := by rw [h]

/-- Witness for the amended C7: changing only the interior of a string
literal (even to operator text such as `a && b`) preserves the
normalized form and hence the score. -/
theorem complexity_string_content_witness :
    calculateComplexity (stripCommentsAndStrings "if (\x27a && b\x27) \x7b\x7d") =
      calculateComplexity (stripCommentsAndStrings "if (\x27zzz\x27) \x7b\x7d") :=
  complexity_depends_only_on_normalized "if (\x27a && b\x27) \x7b\x7d"
    "if (\x27zzz\x27) \x7b\x7d" (by decide)

/-- C8 counterexample: appending text containing a decision point can
strictly decrease the complexity score.  `"if ("` alone matches the
`if (` pattern, but appending it to `"for const a of"` glues `of` to
`if` into the word `ofif`, destroying both the `for...of` match of the
prefix and the appended `if (` match: the score drops from 2 to 1. -/
theorem complexity_append_counterexample :
    calculateComplexity ("for const a of" ++ "if (") <
      calculateComplexity "for const a of" ∧
    0 < countMatches reIf "if (" :=
  ⟨by decide, by decide⟩

/-- C8 (amended): the complexity score is monotonically non-decreasing
in the number of decision-point matches — whenever every
decision-point pattern has at least as many matches in `s` as in `t`,
the score of `s` is at least the score of `t`.  (Appending text does
not always preserve match counts, as the counterexample shows.) -/
theorem calculateComplexity_mono_in_counts (t s : String)
    (h : ∀ re ∈ COMPLEXITY_TOKENS, countMatches re t ≤ countMatches re s) :
    calculateComplexity t ≤ calculateComplexity s :=
  foldl_add_mono (fun p => countMatches p t) (fun p => countMatches p s)
    COMPLEXITY_TOKENS h 1 1 (Nat.le_refl 1)

/-- Witness for the amended C8: adding a second `if (` does not
decrease the score. -/
theorem calculateComplexity_mono_witness :
    calculateComplexity "if (a)" ≤ calculateComplexity "if (a) if (b)" :=
  calculateComplexity_mono_in_counts "if (a)" "if (a) if (b)" (by decide)

/-- C10: an `else if (` occurrence is matched both by the `if (`
pattern and by the `else if (` pattern, so a normalized text with one
match of each and no other decision point scores 3, not 2. -/
theorem else_if_double_count (s : String)
    (hIf : countMatches reIf s = 1)
    (hElseIf : countMatches reElseIf s = 1)
    (hFor : countMatches reFor s = 0)
    (hForOf : countMatches reForOf s = 0)
    (hWhile : countMatches reWhile s = 0)
    (hDo : countMatches reDo s = 0)
    (hCase : countMatches reCase s = 0)
    (hCatch : countMatches reCatch s = 0)
    (hNullish : countMatches reNullish s = 0)
    (hOptChain : countMatches reOptChain s = 0)
    (hAnd : countMatches reAnd s = 0)
    (hOr : countMatches reOr s = 0)
    (hTernary : countMatches reTernary s = 0) :
    calculateComplexity s = 3 := by
  rw [calculateComplexity_eq, hIf, hElseIf, hFor, hForOf, hWhile, hDo, hCase,
    hCatch, hNullish, hOptChain, hAnd, hOr, hTernary]

/-- Witness for C10: `"else if (a)"` has exactly one match of each of
the two `if` patterns and scores 3. -/
theorem else_if_scenario_three : calculateComplexity "else if (a)" = 3 :=
  else_if_double_count "else if (a)"
    (by decide) (by decide) (by decide) (by decide) (by decide) (by decide)
    (by decide) (by decide) (by decide) (by decide) (by decide) (by decide)
    (by decide)

/-- Membership in a set after one `add`. -/
theorem mem_addUnique {acc : List String} {a x : String} :
    x ∈ addUnique acc a ↔ x ∈ acc ∨ x = a := by
  unfold addUnique
  split
  · rename_i h
    exact ⟨Or.inl, fun hx => hx.elim id (fun hxa => hxa ▸ h)⟩
  · simp [List.mem_append]

/-- One `add` preserves duplicate-freeness. -/
theorem nodup_addUnique {acc : List String} (a : String) (h : acc.Nodup) :
    (addUnique acc a).Nodup := by
  unfold addUnique
  split
  · exact h
  · rename_i hna
    simp [List.nodup_append, h, hna]

/-- Membership in a set filled by folding `add`. -/
theorem mem_foldl_addUnique (l : List String) :
    ∀ (acc : List String) (x : String),
      x ∈ l.foldl addUnique acc ↔ x ∈ acc ∨ x ∈ l := by
  induction l with
  | nil => simp
  | cons a l ih =>
    intro acc x
    rw [List.foldl_cons, ih, mem_addUnique, List.mem_cons]
    tauto

/-- A set filled by folding `add` is duplicate-free. -/
theorem nodup_foldl_addUnique (l : List String) :
    ∀ acc : List String, acc.Nodup → (l.foldl addUnique acc).Nodup := by
  induction l with
  | nil => intro acc h; simpa using h
  | cons a l ih =>
    intro acc h
    rw [List.foldl_cons]
    exact ih _ (nodup_addUnique a h)

/-- Membership in the dependency set: exactly the fold's inputs that
are not excluded. -/
theorem mem_foldl_depAdd (l : List String) :
    ∀ (acc : List String) (x : String),
      x ∈ l.foldl (fun acc spec => if spec ∈ EXCLUDED then acc else addUnique acc spec) acc ↔
        x ∈ acc ∨ (x ∈ l ∧ x ∉ EXCLUDED) := by
  induction l with
  | nil => simp
  | cons a l ih =>
    intro acc x
    rw [List.foldl_cons, ih]
    by_cases ha : a ∈ EXCLUDED
    · rw [if_pos ha]
      simp only [List.mem_cons]
      constructor
      · rintro (h | ⟨h1, h2⟩)
        · exact Or.inl h
        · exact Or.inr ⟨Or.inr h1, h2⟩
      · rintro (h | ⟨(rfl | h1), h2⟩)
        · exact Or.inl h
        · exact absurd ha h2
        · exact Or.inr ⟨h1, h2⟩
    · rw [if_neg ha, mem_addUnique]
      simp only [List.mem_cons]
      constructor
      · rintro ((h | rfl) | ⟨h1, h2⟩)
        · exact Or.inl h
        · exact Or.inr ⟨Or.inl rfl, ha⟩
        · exact Or.inr ⟨Or.inr h1, h2⟩
      · rintro (h | ⟨(rfl | h1), h2⟩)
        · exact Or.inl (Or.inl h)
        · exact Or.inl (Or.inr rfl)
        · exact Or.inr ⟨h1, h2⟩

/-- The dependency set is duplicate-free. -/
theorem nodup_foldl_depAdd (l : List String) :
    ∀ acc : List String, acc.Nodup →
      (l.foldl (fun acc spec => if spec ∈ EXCLUDED then acc else addUnique acc spec) acc).Nodup := by
  induction l with
  | nil => intro acc h; simpa using h
  | cons a l ih =>
    intro acc h
    rw [List.foldl_cons]
    by_cases ha : a ∈ EXCLUDED
    · rw [if_pos ha]; exact ih _ h
    · rw [if_neg ha]; exact ih _ (nodup_addUnique a h)

/-- C4: the dependency extractor returns a sorted, duplicate-free
sequence whose members are exactly the captured import specifiers that
are not in the fixed UI-framework exclusion set; in particular a file
containing only `import React from 'react';` yields no dependency. -/
theorem extractDependencies_sorted_nodup_excluded (content : String) :
    (extractDependencies content).Sorted (· ≤ ·) ∧
    (extractDependencies content).Nodup ∧
    (∀ x, x ∈ extractDependencies content ↔
      x ∈ capturesOf IMPORT_REGEX content ∧ x ∉ EXCLUDED) ∧
    extractDependencies "import React from \x27react\x27;" = [] := by
  refine ⟨List.sorted_insertionSort _ _, ?_, ?_, by decide⟩
  · exact ((List.perm_insertionSort _ _).nodup_iff).mpr
      (nodup_foldl_depAdd _ _ List.nodup_nil)
  · intro x
    unfold extractDependencies
    rw [(List.perm_insertionSort (· ≤ ·) _).mem_iff, mem_foldl_depAdd]
    simp

/-- C6: the function detector returns a duplicate-free list whose
members are exactly the names captured by the named-function, arrow
Fn-binding and class-declaration patterns (exported function
declarations are captured by the named-function pattern);
`functionCount` is its length when function analysis is enabled, and
the input `"function hello() {}"` yields exactly `["hello"]`. -/
theorem extractFunctions_nodup_shapes (s : String) :
    (extractFunctions s).Nodup ∧
    (∀ x, x ∈ extractFunctions s ↔
      x ∈ capturesOf reNamedFn s ∨ x ∈ capturesOf reArrowFn s ∨
        x ∈ capturesOf reClassDecl s) ∧
    (∀ (hashFn : String → String) (fp content : String) (cx : Bool),
      (analyzeFile hashFn fp content ⟨cx, true⟩).functionCount =
        (extractFunctions (stripCommentsAndStrings content)).length) ∧
    extractFunctions (stripCommentsAndStrings "function hello() \x7b\x7d") = ["hello"] := by
  refine ⟨nodup_foldl_addUnique _ _ List.nodup_nil, ?_, ?_, by decide⟩
  · intro x
    unfold extractFunctions
    rw [mem_foldl_addUnique]
    simp [List.mem_append]
  · intro hashFn fp content cx
    simp [analyzeFile]

/-- Looking a bucket up after one insertion: the inserted hash's bucket
gains the new path at its end; every other bucket is unchanged. -/
theorem lookupBucket_insertResult (h p : String) :
    ∀ (m : List (String × List String)) (h' : String),
      lookupBucket (insertResult m h p) h' =
        if h' = h then lookupBucket m h ++ [p] else lookupBucket m h' := by
  intro m
  induction m with
  | nil =>
    intro h'
    by_cases hh : h' = h
    · subst hh; simp [insertResult, lookupBucket]
    · simp [insertResult, lookupBucket, hh, Ne.symm hh]
  | cons e rest ih =>
    intro h'
    by_cases he : e.1 = h
    · by_cases hh : h' = h
      · subst hh; simp [insertResult, lookupBucket, he]
      · have he' : ¬e.1 = h' := fun hx => hh (hx.symm.trans he)
        have hne : ¬h = h' := fun hx => hh hx.symm
        simp [insertResult, lookupBucket, he, hh, he', hne]
    · by_cases hh : h' = e.1
      · subst hh
        simp [insertResult, lookupBucket, he]
      · simp [insertResult, lookupBucket, he, Ne.symm hh, ih h']

/-- The keys after one insertion: unchanged when the hash is already
present, appended at the end otherwise. -/
theorem keys_insertResult (h p : String) :
    ∀ m : List (String × List String),
      (insertResult m h p).map Prod.fst =
        if h ∈ m.map Prod.fst then m.map Prod.fst else m.map Prod.fst ++ [h] := by
  intro m
  induction m with
  | nil => simp [insertResult]
  | cons e rest ih =>
    by_cases he : e.1 = h
    · simp [insertResult, he]
    · have he' : ¬h = e.1 := fun hx => he hx.symm
      by_cases hm : h ∈ rest.map Prod.fst <;>
        simp [insertResult, he, he', hm, ih]

/-- The bucket of `h` after the whole loop: the old bucket followed by
the paths of the results whose hash is `h`, in input order. -/
theorem lookupBucket_buildHashMapAux :
    ∀ (rs : List FileResult) (m : List (String × List String)) (h : String),
      lookupBucket (buildHashMapAux m rs) h =
        lookupBucket m h ++
          ((rs.filter (fun r => r.contentHash == h)).map (fun r => r.filePath)) := by
  intro rs
  induction rs with
  | nil => intro m h; simp [buildHashMapAux]
  | cons r rest ih =>
    intro m h
    simp only [buildHashMapAux]
    rw [ih, lookupBucket_insertResult]
    by_cases hc : r.contentHash = h
    · rw [if_pos hc.symm, List.filter_cons]
      simp [hc]
    · rw [if_neg (fun hx => hc hx.symm), List.filter_cons]
      simp [hc]

/-- The loop preserves duplicate-freeness of the keys. -/
theorem keys_nodup_buildHashMapAux :
    ∀ (rs : List FileResult) (m : List (String × List String)),
      ((m.map Prod.fst).Nodup) → (((buildHashMapAux m rs).map Prod.fst).Nodup) := by
  intro rs
  induction rs with
  | nil => intro m hm; simpa [buildHashMapAux] using hm
  | cons r rest ih =>
    intro m hm
    simp only [buildHashMapAux]
    apply ih
    rw [keys_insertResult]
    by_cases hmem : r.contentHash ∈ m.map Prod.fst
    · rw [if_pos hmem]; exact hm
    · rw [if_neg hmem]; simp [List.nodup_append, hm, hmem]

/-- Every emitted group's hash is a key of the map. -/
theorem hash_mem_of_mem_groups :
    ∀ (m : List (String × List String)) (g : DuplicateGroup),
      g ∈ m.filterMap
        (fun e => if 1 < e.2.length then some (⟨e.1, e.2⟩ : DuplicateGroup) else none) →
      g.hash ∈ m.map Prod.fst := by
  intro m
  induction m with
  | nil => simp
  | cons e rest ih =>
    intro g hg
    rw [List.filterMap_cons] at hg
    by_cases hl : 1 < e.2.length
    · rw [if_pos hl] at hg
      rcases List.mem_cons.1 hg with h1 | h2
      · simp [h1]
      · exact List.mem_cons_of_mem _ (ih g h2)
    · rw [if_neg hl] at hg
      exact List.mem_cons_of_mem _ (ih g hg)

/-- Filtering the emitted groups by a hash, over a map with
duplicate-free keys: the single group of that hash's bucket when it
has two or more files, nothing otherwise. -/
theorem groups_filter_eq :
    ∀ (m : List (String × List String)) (h : String),
      ((m.map Prod.fst).Nodup) →
      ((m.filterMap
        (fun e => if 1 < e.2.length then some (⟨e.1, e.2⟩ : DuplicateGroup) else none)).filter
          (fun g => g.hash == h)) =
        (if 1 < (lookupBucket m h).length then [⟨h, lookupBucket m h⟩] else []) := by
  intro m
  induction m with
  | nil => intro h _; simp [lookupBucket]
  | cons e rest ih =>
    intro h hnd
    rw [List.map_cons] at hnd
    have hnd2 := List.nodup_cons.1 hnd
    rw [List.filterMap_cons]
    by_cases heh : e.1 = h
    · subst heh
      have hlk : lookupBucket (e :: rest) e.1 = e.2 := by simp [lookupBucket]
      have hrest : ((rest.filterMap
          (fun e => if 1 < e.2.length then some (⟨e.1, e.2⟩ : DuplicateGroup) else none)).filter
            (fun g => g.hash == e.1)) = [] := by
        rw [List.filter_eq_nil_iff]
        intro g hg
        have hmem := hash_mem_of_mem_groups rest g hg
        simp only [beq_iff_eq]
        exact fun hx => hnd2.1 (hx ▸ hmem)
      by_cases hl : 1 < e.2.length
      · rw [if_pos hl, List.filter_cons]
        simp [hrest, hlk, hl]
      · rw [if_neg hl]
        rw [hrest, hlk, if_neg hl]
    · have hlk : lookupBucket (e :: rest) h = lookupBucket rest h := by
        simp [lookupBucket, heh]
      by_cases hl : 1 < e.2.length
      · rw [if_pos hl, List.filter_cons]
        have : ((⟨e.1, e.2⟩ : DuplicateGroup).hash == h) = false := by
          simp [heh]
        rw [this, if_neg (by simp), ih h hnd2.2, hlk]
      · rw [if_neg hl, ih h hnd2.2, hlk]

/-- C3: for every input sequence and every hash value, when at least
two results carry that hash the grouper emits exactly one group for it,
containing the path of every result with that hash in input order; when
at most one result carries it, no group with that hash is emitted. -/
theorem findDuplicates_groups_by_hash (results : List FileResult) (h : String) :
    (2 ≤ (results.filter (fun r => r.contentHash == h)).length →
      (findDuplicates results).filter (fun g => g.hash == h) =
        [⟨h, (results.filter (fun r => r.contentHash == h)).map (fun r => r.filePath)⟩]) ∧
    ((results.filter (fun r => r.contentHash == h)).length ≤ 1 →
      (findDuplicates results).filter (fun g => g.hash == h) = []) := by
  have hkeys : (((buildHashMapAux [] results).map Prod.fst).Nodup) :=
    keys_nodup_buildHashMapAux results [] (by simp)
  have hbucket : lookupBucket (buildHashMapAux [] results) h =
      (results.filter (fun r => r.contentHash == h)).map (fun r => r.filePath) := by
    simpa [lookupBucket] using lookupBucket_buildHashMapAux results [] h
  have hmain := groups_filter_eq (buildHashMapAux [] results) h hkeys
  rw [hbucket] at hmain
  unfold findDuplicates
  rw [hmain]
  have hlen : ((results.filter (fun r => r.contentHash == h)).map
      (fun r => r.filePath)).length =
      (results.filter (fun r => r.contentHash == h)).length := List.length_map _ _
  constructor
  · intro h2
    rw [if_pos (by omega)]
  · intro h2
    rw [if_neg (by omega)]

/-- Witness for C3: two byte-identical files (hash `H1`) and one
unrelated file (hash `H2`) produce exactly one group, holding the two
paths, and no group for the unique hash. -/
theorem findDuplicates_two_dup_one_unique :
    (findDuplicates demoResults).filter (fun g => g.hash == "H1") =
      [⟨"H1", (demoResults.filter (fun r => r.contentHash == "H1")).map
        (fun r => r.filePath)⟩] ∧
    (findDuplicates demoResults).filter (fun g => g.hash == "H2") = [] :=
  ⟨(findDuplicates_groups_by_hash demoResults "H1").1 (by decide),
   (findDuplicates_groups_by_hash demoResults "H2").2 (by decide)⟩
